import Mathlib

/-!
Shallow embedding of the color-utils library (colorConversions.ts,
colorNaming.ts, colorPalette.ts).

Numbers are modelled as exact rationals (`ℚ`); the only irrational
operation in the source, `Math.pow(_, 2.4)` inside the WCAG luminance
computation, is modelled with `Real.rpow` (`ℝ`).  Hex strings are
modelled as `List Char`.  JavaScript `Math.round` is round-half-up
(`⌊x + 1/2⌋`), `%` is the truncating remainder, and `arr[i]` returns
`undefined` (here `none`) out of bounds; the `?? fallback` chains of the
source are modelled with `Option.getD`.  Fallible functions (those that
can throw the invalid-hex-format error) return `Option`.
-/

namespace ColorUtils

/-- JavaScript `Math.round`: round half toward positive infinity. -/
def jsRound (x : ℚ) : ℤ := ⌊x + 1/2⌋

/-- JavaScript truncation toward zero (used by the `%` operator). -/
def jsTrunc (x : ℚ) : ℤ := if 0 ≤ x then ⌊x⌋ else -⌊-x⌋

/-- JavaScript `%` (truncating remainder) on rationals. -/
def jsMod (x n : ℚ) : ℚ := x - n * jsTrunc (x / n)

/-- JavaScript `array[i]` for an integer index: `none` when out of bounds. -/
def jsGetStr (list : List String) (i : ℤ) : Option String :=
  if 0 ≤ i then list.get? i.toNat else none

/-- ASCII uppercasing of one character (JS `toUpperCase` on our char set). -/
def jsToUpper (c : Char) : Char :=
  if 'a' ≤ c && c ≤ 'z' then Char.ofNat (c.toNat - 32) else c

/-- ASCII lowercasing of one character (JS `toLowerCase` on our char set). -/
def jsToLower (c : Char) : Char :=
  if 'A' ≤ c && c ≤ 'Z' then Char.ofNat (c.toNat + 32) else c

/-- The character class `[0-9A-Fa-f]`. -/
def isHexDigitChar (c : Char) : Bool :=
  ('0' ≤ c && c ≤ '9') || ('A' ≤ c && c ≤ 'F') || ('a' ≤ c && c ≤ 'f')

/-- Numeric value of a hexadecimal digit (used by `parseInt(_, 16)`). -/
def hexVal (c : Char) : ℕ :=
  if '0' ≤ c && c ≤ '9' then c.toNat - '0'.toNat
  else if 'A' ≤ c && c ≤ 'F' then c.toNat - 'A'.toNat + 10
  else if 'a' ≤ c && c ≤ 'f' then c.toNat - 'a'.toNat + 10
  else 0

/-- An RGB triple as produced by `hexToRgb` (integer channels 0-255). -/
structure RGB where
  r : ℕ
  g : ℕ
  b : ℕ
deriving DecidableEq, Repr

/-- An HSL triple (hue in degrees, saturation/lightness in percent). -/
structure HSL where
  h : ℚ
  s : ℚ
  l : ℚ
deriving DecidableEq, Repr

/-- An RGB triple with (possibly unclamped) integer channels, as returned
by `hslToRgb` after rounding. -/
structure RGBi where
  r : ℤ
  g : ℤ
  b : ℤ
deriving DecidableEq, Repr

/-- The part of `hexToRgb` (colorConversions.ts) that runs after the
leading `#` has been removed: expands 3-digit shorthand by doubling each
character, validates `^[0-9A-Fa-f]{6}$`, and parses the three channel
bytes with `parseInt(_, 16)`. -/
def hexToRgbClean (cleanHex0 : List Char) : Option RGB :=
  let cleanHex := if cleanHex0.length = 3 then cleanHex0.flatMap (fun c => [c, c]) else cleanHex0
  if cleanHex.length = 6 && cleanHex.all isHexDigitChar then
    match cleanHex with
    | c0 :: c1 :: c2 :: c3 :: c4 :: c5 :: _ =>
        some { r := 16 * hexVal c0 + hexVal c1
             , g := 16 * hexVal c2 + hexVal c3
             , b := 16 * hexVal c4 + hexVal c5 }
    | _ => none
  else none

/-- Source `hexToRgb` (colorConversions.ts): `hex.replace(/^#/, '')` (strip one
leading `#`) followed by expansion, validation and parsing.  `none`
models the thrown invalid-hex-format error. -/
def hexToRgb (hex : List Char) : Option RGB :=
  hexToRgbClean
    (match hex with
     | '#' :: rest => rest
     | _ => hex)

/-- The `"0123456789abcdef"` digit table for `toString(16)`. -/
def lcHexDigit (n : ℕ) : Char :=
  (String.toList "0123456789abcdef").getD n '0'

/-- The inner `toHex` helper of `rgbToHex`: clamp to `[0,255]` after
rounding, render in base 16, pad to two digits. -/
def toHexByte (n : ℚ) : List Char :=
  let clamped : ℕ := (max 0 (min 255 (jsRound n))).toNat
  let hx := if clamped < 16 then [lcHexDigit clamped]
            else [lcHexDigit (clamped / 16), lcHexDigit (clamped % 16)]
  if hx.length = 1 then '0' :: hx else hx

/-- Source `rgbToHex` (colorConversions.ts): `#RRGGBB`, uppercased. -/
def rgbToHex (r g b : ℚ) : List Char :=
  ('#' :: (toHexByte r ++ toHexByte g ++ toHexByte b)).map jsToUpper

/-- Source `rgbToHsl` (colorConversions.ts). -/
def rgbToHsl (r g b : ℚ) : HSL :=
  let r := r / 255
  let g := g / 255
  let b := b / 255
  let maxC := max r (max g b)
  let minC := min r (min g b)
  let diff := maxC - minC
  let l := (maxC + minC) / 2
  if diff = 0 then
    { h := 0, s := 0, l := l * 100 }
  else
    let s := if l > 1/2 then diff / (2 - maxC - minC) else diff / (maxC + minC)
    let h :=
      if maxC = r then ((g - b) / diff + (if g < b then 6 else 0)) / 6
      else if maxC = g then ((b - r) / diff + 2) / 6
      else ((r - g) / diff + 4) / 6
    { h := h * 360, s := s * 100, l := l * 100 }

/-- The `hue2rgb` helper of `hslToRgb`. -/
def hue2rgb (p q t : ℚ) : ℚ :=
  let t := if t < 0 then t + 1 else t
  let t := if t > 1 then t - 1 else t
  if t < 1/6 then p + (q - p) * 6 * t
  else if t < 1/2 then q
  else if t < 2/3 then p + (q - p) * (2/3 - t) * 6
  else p

/-- Source `hslToRgb` (colorConversions.ts). -/
def hslToRgb (h s l : ℚ) : RGBi :=
  let h := h / 360
  let s := s / 100
  let l := l / 100
  if s = 0 then
    let v := jsRound (l * 255)
    { r := v, g := v, b := v }
  else
    let q := if l < 1/2 then l * (1 + s) else l + s - l * s
    let p := 2 * l - q
    { r := jsRound ( hue2rgb p q (h + 1/3) * 255)
    , g := jsRound ( hue2rgb p q h * 255)
    , b := jsRound ( hue2rgb p q (h - 1/3) * 255) }

/-- Source `hslToHex` (colorConversions.ts). -/
def hslToHex (h s l : ℚ) : List Char :=
  let rgb := hslToRgb h s l
  rgbToHex rgb.r rgb.g rgb.b

/-- Source `hexToHsl` (colorConversions.ts). -/
def hexToHsl (hex : List Char) : Option HSL :=
  (hexToRgb hex).map fun rgb => rgbToHsl rgb.r rgb.g rgb.b

/-- The `choose` helper of `getHueName` (colorNaming.ts): pick a sub-name
by linear position inside the band `[a, b)`. -/
def choose (h a b : ℚ) (names : List String) : String :=
  let pos := (h - a) / (b - a)
  let idx := min ((names.length : ℤ) - 1) ⌊pos * names.length⌋
  (( jsGetStr names idx).getD ((( jsGetStr names 0)).getD "Gray"))

/-- Source `getHueName` (colorNaming.ts). -/
def getHueName (h s : ℚ) : String :=
  if s < 8 then "Neutral"
  else
    let h := jsMod (h + 360) 360
    if h < 15 then choose h 0 15 ["Scarlet", "Red", "Crimson"]
    else if h < 35 then choose h 15 35 ["Tangerine", "Orange"]
    else if h < 50 then choose h 35 50 ["Amber", "Honey"]
    else if h < 70 then choose h 50 70 ["Lemon", "Yellow", "Gold"]
    else if h < 85 then choose h 70 85 ["Lime", "Chartreuse"]
    else if h < 155 then choose h 85 155 ["Mint", "Green", "Emerald"]
    else if h < 180 then choose h 155 180 ["Teal", "Aqua"]
    else if h < 200 then choose h 180 200 ["Cyan", "Sky"]
    else if h < 240 then choose h 200 240 ["Azure", "Blue", "Cobalt"]
    else if h < 270 then "Indigo"
    else if h < 295 then choose h 270 295 ["Violet", "Lavender"]
    else if h < 320 then choose h 295 320 ["Purple", "Grape"]
    else if h < 335 then choose h 320 335 ["Magenta", "Fuchsia"]
    else if h < 350 then choose h 335 350 ["Rose", "Cerise", "Rosewood"]
    else choose h 350 360 ["Scarlet", "Red", "Crimson"]

namespace toneBuckets

def veryLight : List String := ["Pale", "Washed", "Faint"]

def lightSoft : List String := ["Soft", "Subdued"]

def light : List String := ["Light", "Gentle"]

def bright : List String := ["Bright", "Lively"]

def muted : List String := ["Muted", "Hazy", "Smokey"]

def medium : List String := ["Medium", "Balanced"]

def vivid : List String := ["Vivid", "Strong"]

def dim : List String := ["Dim", "Muddy", "Dirty"]

def dark : List String := ["Dark"]

def rich : List String := ["Rich", "Intense"]

def charcoal : List String := ["Charcoal", "Dusky"]

def deep : List String := ["Deep"]

def inky : List String := ["Inky"]

end toneBuckets

/-- Source `deterministicPick` (colorNaming.ts): hash-select one adjective. -/
def deterministicPick (list : List String) (h s l : ℚ) : String :=
  let seed := ⌊jsMod (h * 7 + s * 5 + l * 3) list.length⌋
  (( jsGetStr list seed).getD ((( jsGetStr list 0)).getD "Medium"))

/-- Source `getToneName` (colorNaming.ts). -/
def getToneName (s l h : ℚ) : String :=
  if l > 85 then deterministicPick toneBuckets.veryLight h s l
  else if l > 65 then
    (if s < 30 then deterministicPick toneBuckets.lightSoft h s l
     else if s < 60 then deterministicPick toneBuckets.light h s l
     else deterministicPick toneBuckets.bright h s l)
  else if l > 35 then
    (if s < 30 then deterministicPick toneBuckets.muted h s l
     else if s < 60 then deterministicPick toneBuckets.medium h s l
     else deterministicPick toneBuckets.vivid h s l)
  else if l > 25 then
    (if s < 30 then deterministicPick toneBuckets.dim h s l
     else if s < 70 then deterministicPick toneBuckets.dark h s l
     else deterministicPick toneBuckets.rich h s l)
  else
    (if s < 30 then deterministicPick toneBuckets.charcoal h s l
     else if s < 70 then deterministicPick toneBuckets.deep h s l
     else deterministicPick toneBuckets.inky h s l)

/-- The whitespace class matched by the `[\s-]+` regex, restricted to the
ASCII characters that can occur in generated names. -/
def isJsWhitespace (c : Char) : Bool :=
  c = ' ' || c = '\t' || c = '\n' || c = '\r' || c.toNat = 11 || c.toNat = 12

/-- Modelling `fullName.replace(/[\s-]+/g, "")`: deleting every maximal run of
whitespace/hyphen characters is deleting every such character. -/
def stripWsHyphens (cs : List Char) : List Char :=
  cs.filter fun c => !(isJsWhitespace c || c = '-')

/-- Modelling `replace(/^./, c => c.toLowerCase())`: lowercase the first character. -/
def lowerFirst (cs : List Char) : List Char :=
  match cs with
  | [] => []
  | c :: rest => jsToLower c :: rest

/-- The `ColorClassification` record of colorNaming.ts. -/
structure ColorClassification where
  fullName : String
  tokenName : String
  tone : String
  hueGroup : String
  hsl : HSL
deriving DecidableEq, Repr

/-- Source `classifyHexColor` (colorNaming.ts). -/
def classifyHexColor (hex : List Char) : Option ColorClassification :=
  (hexToRgb hex).map fun rgb =>
    let hsl := rgbToHsl rgb.r rgb.g rgb.b
    let hueGroup := getHueName hsl.h hsl.s
    let tone := getToneName hsl.s hsl.l hsl.h
    let fullName := if hueGroup = "Neutral" then tone ++ " Neutral" else tone ++ " " ++ hueGroup
    let tokenName := String.mk (lowerFirst (stripWsHyphens fullName.toList))
    { fullName := fullName, tokenName := tokenName, tone := tone
    , hueGroup := hueGroup, hsl := hsl }

/-- One entry of `palette.steps` (colorPalette.ts `ColorStep`).  The
real-valued fields `contrastWhite`, `contrastDark`, `wcagWhite` and
`wcagDark` of the source record are pure functions of `hex` (the source
fills them with `getContrastRatio(stepHex, ...)`); they are represented
by the functions `getContrastRatio` and `compliance` below applied to
`hex`, so that the record itself stays computable. -/
structure ColorStep where
  step : ℕ
  hex : List Char
  isChosenColor : Bool
deriving DecidableEq, Repr

/-- The `ColorPalette` record of colorPalette.ts. -/
structure ColorPalette where
  name : String
  tokenName : String
  chosenStep : ℕ
  steps : List ColorStep
  classification : ColorClassification
deriving DecidableEq, Repr

/-- The fixed step labels of the palette. -/
def stepValues : List ℕ := [50, 100, 200, 300, 400, 500, 600, 700, 800, 900]

/-- The fixed target lightness of each step. -/
def lightnessSteps : List ℚ := [95, 90, 80, 65, 50, 40, 30, 20, 12, 8]

/-- The scan loop of `generateColorPalette` that finds the step whose
target lightness is closest to the base lightness `l`; carries the
state `(minDiff, closestIndex)` exactly as the source does, updating
only on a strictly smaller difference. -/
def pickClosest (l : ℚ) : List ℚ → ℕ → ℚ → ℕ → ℚ × ℕ
  | [], _, minDiff, best => (minDiff, best)
  | t :: rest, i, minDiff, best =>
      if |l - t| < minDiff then pickClosest l rest (i + 1) |l - t| i
      else pickClosest l rest (i + 1) minDiff best

/-- The chosen index: initialized with index 0, scanning indices 1-9. -/
def closestIndex (l : ℚ) : ℕ :=
  (pickClosest l (lightnessSteps.drop 1) 1 |l - lightnessSteps.getD 0 50| 0).2

/-- The body of the step-building loop of `generateColorPalette` for
index `i` (`ci` is the chosen index, `base` the input's HSL). -/
def paletteStep (hex : List Char) (base : HSL) (ci : ℕ) (i : ℕ) : ColorStep :=
  let stepValue := stepValues.getD i 0
  let stepLightness := lightnessSteps.getD i 0
  if i = ci then
    { step := stepValue, hex := hex.map jsToUpper, isChosenColor := true }
  else
    let s := base.s
    let s := if i < 2 then s * 0.3 else s
    let s := if 7 < i then min (s * 1.2) 100 else s
    { step := stepValue, hex := hslToHex base.h s stepLightness, isChosenColor := false }

/-- Source `generateColorPalette` (colorPalette.ts). -/
def generateColorPalette (hex : List Char) : Option ColorPalette :=
  (classifyHexColor hex).map fun classification =>
    let baseHsl := classification.hsl
    let closestIdx := closestIndex baseHsl.l
    { name := classification.fullName
    , tokenName := classification.tokenName
    , chosenStep := stepValues.getD closestIdx 500
    , steps := (List.range stepValues.length).map (paletteStep hex baseHsl closestIdx)
    , classification := classification }

/-- The per-channel sRGB transform of `getLuminanceHex`
(colorPalette.ts), on an integer channel value. -/
noncomputable def luminanceChannel (n : ℕ) : ℝ :=
  let c : ℝ := n / 255
  if c ≤ 0.03928 then c / 12.92 else ((c + 0.055) / 1.055) ^ (2.4 : ℝ)

/-- Source `getLuminanceHex` (colorPalette.ts): WCAG relative luminance. -/
noncomputable def getLuminanceHex (hex : List Char) : Option ℝ :=
  (hexToRgb hex).map fun rgb =>
    0.2126 * luminanceChannel rgb.r
      + 0.7152 * luminanceChannel rgb.g
      + 0.0722 * luminanceChannel rgb.b

/-- Source `getContrastRatio` (colorPalette.ts). -/
noncomputable def getContrastRatio (a b : List Char) : Option ℝ :=
  (getLuminanceHex a).bind fun lum1 =>
    (getLuminanceHex b).map fun lum2 =>
      (max lum1 lum2 + 0.05) / (min lum1 lum2 + 0.05)

/-- Source `compliance` (colorPalette.ts). -/
noncomputable def compliance (r : ℝ) : String :=
  if 7 ≤ r then "AAA" else if 4.5 ≤ r then "AA" else "Fail"

/-!  Specification-side definitions (written from the claims' words, for
refinement comparisons against the code-derived definitions above). -/

/-- Claim C7's pattern body: exactly 3 or exactly 6 case-insensitive
hexadecimal digits. -/
def specHexBody (l : List Char) : Bool :=
  (l.length = 3 || l.length = 6) && l.all isHexDigitChar

/-- Claim C7's accepted pattern: one optional leading `#` followed by
exactly 3 or exactly 6 case-insensitive hexadecimal digits. -/
def specValidHex (hex : List Char) : Bool :=
  match hex with
  | '#' :: rest => specHexBody rest
  | _ => specHexBody hex

/-- Claim C5's in-band selection rule: subdivide the band `[a, b)` into
`N` equal sub-intervals and pick by linear position, clamped to `N-1`. -/
def claimChoose (h a b : ℚ) (names : List String) : String :=
  names.getD (min (names.length - 1) (⌊(h - a) / (b - a) * names.length⌋).toNat) ""

/-- Claim C5's 14-band hue table (for hue already in `[0,360)`). -/
def hueNameClaim (h s : ℚ) : String :=
  if s < 8 then "Neutral"
  else if h < 15 then claimChoose h 0 15 ["Scarlet", "Red", "Crimson"]
  else if h < 35 then claimChoose h 15 35 ["Tangerine", "Orange"]
  else if h < 50 then claimChoose h 35 50 ["Amber", "Honey"]
  else if h < 70 then claimChoose h 50 70 ["Lemon", "Yellow", "Gold"]
  else if h < 85 then claimChoose h 70 85 ["Lime", "Chartreuse"]
  else if h < 155 then claimChoose h 85 155 ["Mint", "Green", "Emerald"]
  else if h < 180 then claimChoose h 155 180 ["Teal", "Aqua"]
  else if h < 200 then claimChoose h 180 200 ["Cyan", "Sky"]
  else if h < 240 then claimChoose h 200 240 ["Azure", "Blue", "Cobalt"]
  else if h < 270 then "Indigo"
  else if h < 295 then claimChoose h 270 295 ["Violet", "Lavender"]
  else if h < 320 then claimChoose h 295 320 ["Purple", "Grape"]
  else if h < 335 then claimChoose h 320 335 ["Magenta", "Fuchsia"]
  else if h < 350 then claimChoose h 335 350 ["Rose", "Cerise", "Rosewood"]
  else claimChoose h 350 360 ["Scarlet", "Red", "Crimson"]

/-- The fixed hue vocabulary of the hue classifier. -/
def hueVocabulary : List String :=
  ["Neutral", "Scarlet", "Red", "Crimson", "Tangerine", "Orange", "Amber", "Honey",
   "Lemon", "Yellow", "Gold", "Lime", "Chartreuse", "Mint", "Green", "Emerald",
   "Teal", "Aqua", "Cyan", "Sky", "Azure", "Blue", "Cobalt", "Indigo",
   "Violet", "Lavender", "Purple", "Grape", "Magenta", "Fuchsia", "Rose",
   "Cerise", "Rosewood"]

/-- Claim C4's 13-bucket tone table. -/
def toneBucketClaim (s l : ℚ) : List String :=
  if l > 85 then toneBuckets.veryLight
  else if l > 65 then
    (if s < 30 then toneBuckets.lightSoft
     else if s < 60 then toneBuckets.light
     else toneBuckets.bright)
  else if l > 35 then
    (if s < 30 then toneBuckets.muted
     else if s < 60 then toneBuckets.medium
     else toneBuckets.vivid)
  else if l > 25 then
    (if s < 30 then toneBuckets.dim
     else if s < 70 then toneBuckets.dark
     else toneBuckets.rich)
  else
    (if s < 30 then toneBuckets.charcoal
     else if s < 70 then toneBuckets.deep
     else toneBuckets.inky)

/-- Claim C4's in-bucket index: `floor((h*7 + s*5 + l*3) mod size)`. -/
def toneIndexClaim (h s l : ℚ) (size : ℕ) : ℕ :=
  (⌊(h * 7 + s * 5 + l * 3) - size * ⌊(h * 7 + s * 5 + l * 3) / size⌋⌋).toNat

/-- The result of rounding a channel to the nearest integer and clamping
it to `[0,255]` (claim C9's description of `rgbToHex`'s preprocessing). -/
def jsClampRound (x : ℚ) : ℕ := (max 0 (min 255 (jsRound x))).toNat

/-- Claim C10's format: `#` followed by exactly six uppercase
hexadecimal digits. -/
def isUpperHexDigit (c : Char) : Bool :=
  ('0' ≤ c && c ≤ '9') || ('A' ≤ c && c ≤ 'F')

/-- Claim C10's normalized-hex predicate. -/
def isNormalizedHex (hex : List Char) : Bool :=
  match hex with
  | '#' :: rest => rest.length = 6 && rest.all isUpperHexDigit
  | _ => false

/-- Uppercase hexadecimal digit table (what `toString(16)` followed by
`toUpperCase()` produces digit-wise). -/
def ucHexDigit (n : ℕ) : Char :=
  (String.toList "0123456789ABCDEF").getD n '0'

/-! ### Character-level facts -/

theorem charLe_iff {a b : Char} : a ≤ b ↔ a.toNat ≤ b.toNat := by
  rw [Char.le_def]
  exact UInt32.le_def

theorem toNat_ofNat_valid {n : ℕ} (h : n.isValidChar) : (Char.ofNat n).toNat = n := by
  unfold Char.ofNat
  rw [dif_pos h]
  rfl

theorem char_toNat_inj {a b : Char} (h : a.toNat = b.toNat) : a = b := by
  apply Char.ext
  apply UInt32.ext
  exact h

theorem jsToUpper_toNat (c : Char) :
    (jsToUpper c).toNat = if 97 ≤ c.toNat ∧ c.toNat ≤ 122 then c.toNat - 32 else c.toNat := by
  have ha : ('a' : Char).toNat = 97 := rfl
  have hz : ('z' : Char).toNat = 122 := rfl
  unfold jsToUpper
  by_cases h : 97 ≤ c.toNat ∧ c.toNat ≤ 122
  · rw [if_pos h, if_pos]
    · exact toNat_ofNat_valid (Or.inl (by omega))
    · simp only [Bool.and_eq_true, decide_eq_true_eq, charLe_iff, ha, hz]
      exact h
  · rw [if_neg h, if_neg]
    simp only [Bool.and_eq_true, decide_eq_true_eq, charLe_iff, ha, hz]
    exact h

theorem isHexDigitChar_iff {c : Char} :
    isHexDigitChar c = true ↔
      (48 ≤ c.toNat ∧ c.toNat ≤ 57) ∨ (65 ≤ c.toNat ∧ c.toNat ≤ 70) ∨
        (97 ≤ c.toNat ∧ c.toNat ≤ 102) := by
  have e1 : ('0' : Char).toNat = 48 := rfl
  have e2 : ('9' : Char).toNat = 57 := rfl
  have e3 : ('A' : Char).toNat = 65 := rfl
  have e4 : ('F' : Char).toNat = 70 := rfl
  have e5 : ('a' : Char).toNat = 97 := rfl
  have e6 : ('f' : Char).toNat = 102 := rfl
  unfold isHexDigitChar
  simp only [Bool.or_eq_true, Bool.and_eq_true, decide_eq_true_eq, charLe_iff,
    e1, e2, e3, e4, e5, e6]
  omega

theorem isUpperHexDigit_iff {c : Char} :
    isUpperHexDigit c = true ↔
      (48 ≤ c.toNat ∧ c.toNat ≤ 57) ∨ (65 ≤ c.toNat ∧ c.toNat ≤ 70) := by
  have e1 : ('0' : Char).toNat = 48 := rfl
  have e2 : ('9' : Char).toNat = 57 := rfl
  have e3 : ('A' : Char).toNat = 65 := rfl
  have e4 : ('F' : Char).toNat = 70 := rfl
  unfold isUpperHexDigit
  simp only [Bool.or_eq_true, Bool.and_eq_true, decide_eq_true_eq, charLe_iff,
    e1, e2, e3, e4]

theorem isHexDigitChar_jsToUpper (c : Char) :
    isHexDigitChar (jsToUpper c) = isHexDigitChar c := by
  rw [Bool.eq_iff_iff, isHexDigitChar_iff, isHexDigitChar_iff, jsToUpper_toNat c]
  by_cases hlc : 97 ≤ c.toNat ∧ c.toNat ≤ 122
  · rw [if_pos hlc]
    omega
  · rw [if_neg hlc]

theorem hexVal_eq (c : Char) :
    hexVal c = if 48 ≤ c.toNat ∧ c.toNat ≤ 57 then c.toNat - 48
      else if 65 ≤ c.toNat ∧ c.toNat ≤ 70 then c.toNat - 65 + 10
      else if 97 ≤ c.toNat ∧ c.toNat ≤ 102 then c.toNat - 97 + 10
      else 0 := by
  unfold hexVal
  simp only [Bool.and_eq_true, decide_eq_true_eq, charLe_iff]
  rfl

theorem hexVal_le (c : Char) : hexVal c ≤ 15 := by
  rw [hexVal_eq]
  split_ifs <;> omega

/-! ### Byte rendering and the hex round trip -/

theorem jsClampRound_le (x : ℚ) : jsClampRound x ≤ 255 := by
  unfold jsClampRound
  have h2 : max 0 (min 255 (jsRound x)) ≤ 255 :=
    max_le (by norm_num) (min_le_left _ _)
  omega

theorem jsToUpper_lcHexDigit : ∀ d < 16, jsToUpper (lcHexDigit d) = ucHexDigit d := by
  decide

theorem hexVal_ucHexDigit : ∀ d < 16, hexVal (ucHexDigit d) = d := by
  decide

theorem isHexDigitChar_ucHexDigit : ∀ d < 16, isHexDigitChar (ucHexDigit d) = true := by
  decide

theorem isUpperHexDigit_ucHexDigit : ∀ d < 16, isUpperHexDigit (ucHexDigit d) = true := by
  decide

theorem toHexByte_eq (n : ℚ) :
    toHexByte n = [lcHexDigit (jsClampRound n / 16), lcHexDigit (jsClampRound n % 16)] := by
  unfold toHexByte jsClampRound
  set m := (max 0 (min 255 (jsRound n))).toNat with hm
  clear_value m
  by_cases h : m < 16
  · have h1 : m / 16 = 0 := Nat.div_eq_of_lt h
    have h2 : m % 16 = m := Nat.mod_eq_of_lt h
    simp only [if_pos h, List.length_cons, List.length_nil, if_pos rfl, h1, h2]
    rfl
  · simp only [if_neg h, List.length_cons, List.length_nil]
    rfl

theorem rgbToHex_eq (r g b : ℚ) :
    rgbToHex r g b =
      '#' :: [ucHexDigit (jsClampRound r / 16), ucHexDigit (jsClampRound r % 16),
              ucHexDigit (jsClampRound g / 16), ucHexDigit (jsClampRound g % 16),
              ucHexDigit (jsClampRound b / 16), ucHexDigit (jsClampRound b % 16)] := by
  unfold rgbToHex
  rw [toHexByte_eq r, toHexByte_eq g, toHexByte_eq b]
  have hd : ∀ x : ℚ, jsClampRound x / 16 < 16 := by
    intro x
    have := jsClampRound_le x
    omega
  have hm : ∀ x : ℚ, jsClampRound x % 16 < 16 := by
    intro x
    exact Nat.mod_lt _ (by norm_num)
  simp only [List.cons_append, List.nil_append, List.map_cons, List.map_nil]
  rw [jsToUpper_lcHexDigit _ (hd r), jsToUpper_lcHexDigit _ (hm r),
    jsToUpper_lcHexDigit _ (hd g), jsToUpper_lcHexDigit _ (hm g),
    jsToUpper_lcHexDigit _ (hd b), jsToUpper_lcHexDigit _ (hm b)]
  rfl

theorem hexToRgb_rgbToHex (r g b : ℚ) :
    hexToRgb (rgbToHex r g b) =
      some { r := jsClampRound r, g := jsClampRound g, b := jsClampRound b } := by
  rw [rgbToHex_eq]
  have hd : ∀ x : ℚ, jsClampRound x / 16 < 16 := by
    intro x
    have := jsClampRound_le x
    omega
  have hm : ∀ x : ℚ, jsClampRound x % 16 < 16 := by
    intro x
    exact Nat.mod_lt _ (by norm_num)
  have hv : ∀ m : ℕ, 16 * (m / 16) + m % 16 = m := fun m => Nat.div_add_mod m 16
  simp [hexToRgb, hexToRgbClean, isHexDigitChar_ucHexDigit _ (hd r), isHexDigitChar_ucHexDigit _ (hm r),
    isHexDigitChar_ucHexDigit _ (hd g), isHexDigitChar_ucHexDigit _ (hm g),
    isHexDigitChar_ucHexDigit _ (hd b), isHexDigitChar_ucHexDigit _ (hm b),
    hexVal_ucHexDigit _ (hd r), hexVal_ucHexDigit _ (hm r),
    hexVal_ucHexDigit _ (hd g), hexVal_ucHexDigit _ (hm g),
    hexVal_ucHexDigit _ (hd b), hexVal_ucHexDigit _ (hm b), hv]

theorem isNormalizedHex_rgbToHex (r g b : ℚ) :
    isNormalizedHex (rgbToHex r g b) = true := by
  rw [rgbToHex_eq]
  have hd : ∀ x : ℚ, jsClampRound x / 16 < 16 := by
    intro x
    have := jsClampRound_le x
    omega
  have hm : ∀ x : ℚ, jsClampRound x % 16 < 16 := by
    intro x
    exact Nat.mod_lt _ (by norm_num)
  simp [isNormalizedHex, isUpperHexDigit_ucHexDigit _ (hd r), isUpperHexDigit_ucHexDigit _ (hm r),
    isUpperHexDigit_ucHexDigit _ (hd g), isUpperHexDigit_ucHexDigit _ (hm g),
    isUpperHexDigit_ucHexDigit _ (hd b), isUpperHexDigit_ucHexDigit _ (hm b)]

/-! ### Acceptance of `hexToRgb` versus the claimed hex pattern -/

theorem length_eq_six {α : Type} {l : List α} (h : l.length = 6) :
    ∃ a b c d e f, l = [a, b, c, d, e, f] := by
  rcases l with _ | ⟨a, _ | ⟨b, _ | ⟨c, _ | ⟨d, _ | ⟨e, _ | ⟨f, rest⟩⟩⟩⟩⟩⟩
  · simp at h
  · simp at h
  · simp at h
  · simp at h
  · simp at h
  · simp at h
  · have hr : rest = [] := by
      simp only [List.length_cons] at h
      exact List.length_eq_zero.mp (by omega)
    exact ⟨a, b, c, d, e, f, by rw [hr]⟩

theorem flatMap_double_all (l : List Char) (p : Char → Bool) :
    (l.flatMap fun c => [c, c]).all p = l.all p := by
  induction l with
  | nil => rfl
  | cons a t ih => simp [List.flatMap_cons, ih, Bool.and_assoc, Bool.and_self]

theorem hexToRgbClean_isSome (l : List Char) :
    (hexToRgbClean l).isSome = specHexBody l := by
  by_cases h3 : l.length = 3
  · obtain ⟨a, b, c, hl⟩ := List.length_eq_three.mp h3
    subst hl
    unfold hexToRgbClean specHexBody
    cases hpa : isHexDigitChar a <;> cases hpb : isHexDigitChar b <;>
      cases hpc : isHexDigitChar c <;>
      simp [hpa, hpb, hpc]
  · by_cases h6 : l.length = 6
    · obtain ⟨a, b, c, d, e, f, hl⟩ := length_eq_six h6
      subst hl
      unfold hexToRgbClean specHexBody
      cases hpa : isHexDigitChar a <;> cases hpb : isHexDigitChar b <;>
        cases hpc : isHexDigitChar c <;> cases hpd : isHexDigitChar d <;>
        cases hpe : isHexDigitChar e <;> cases hpf : isHexDigitChar f <;>
        simp [hpa, hpb, hpc, hpd, hpe, hpf]
    · unfold hexToRgbClean specHexBody
      rw [if_neg h3]
      rw [if_neg (by simp [h3, h6] : ¬(l.length = 6 && l.all isHexDigitChar) = true)]
      simp [h3, h6]

theorem hexToRgb_isSome (hex : List Char) :
    (hexToRgb hex).isSome = specValidHex hex := by
  unfold hexToRgb specValidHex
  split
  · exact hexToRgbClean_isSome _
  · exact hexToRgbClean_isSome _

/-! ### The truncating remainder and the deterministic selectors -/

theorem jsTrunc_nonneg {x : ℚ} (hx : 0 ≤ x) : jsTrunc x = ⌊x⌋ := if_pos hx

theorem jsMod_nonneg_eq (x n : ℚ) (hx : 0 ≤ x) (hn : 0 < n) :
    jsMod x n = x - n * ⌊x / n⌋ := by
  unfold jsMod
  rw [jsTrunc_nonneg (div_nonneg hx hn.le)]

theorem jsMod_bounds (x n : ℚ) (hx : 0 ≤ x) (hn : 0 < n) :
    0 ≤ jsMod x n ∧ jsMod x n < n := by
  rw [jsMod_nonneg_eq x n hx hn]
  have hne : n ≠ 0 := ne_of_gt hn
  have hxn : n * (x / n) = x := by field_simp
  constructor
  · have h1 := mul_le_mul_of_nonneg_left (Int.floor_le (x / n)) hn.le
    rw [hxn] at h1
    linarith
  · have h2 := mul_lt_mul_of_pos_left (Int.lt_floor_add_one (x / n)) hn
    rw [mul_add, mul_one, hxn] at h2
    linarith

theorem pick_claim (list : List String) (h s l : ℚ)
    (hx : 0 ≤ h * 7 + s * 5 + l * 3) (hne : list ≠ []) :
    deterministicPick list h s l = list.getD (toneIndexClaim h s l list.length) "" ∧
    toneIndexClaim h s l list.length < list.length := by
  have hN : 0 < list.length := List.length_pos.mpr hne
  have hNq : (0 : ℚ) < list.length := by exact_mod_cast hN
  obtain ⟨h0, h1⟩ := jsMod_bounds (h * 7 + s * 5 + l * 3) list.length hx hNq
  set seed := ⌊jsMod (h * 7 + s * 5 + l * 3) list.length⌋ with hseed
  have hfl0 : 0 ≤ seed := Int.floor_nonneg.mpr h0
  have hfl1 : seed < list.length := Int.floor_lt.mpr (by exact_mod_cast h1)
  have htn : seed.toNat < list.length := by omega
  have hclaim : toneIndexClaim h s l list.length = seed.toNat := by
    unfold toneIndexClaim
    rw [hseed, jsMod_nonneg_eq _ _ hx hNq]
  refine ⟨?_, by rw [hclaim]; exact htn⟩
  simp only [deterministicPick, jsGetStr]
  rw [← hseed, if_pos hfl0, hclaim, List.get?_eq_getElem?, List.getElem?_eq_getElem htn,
    List.getD_eq_getElem list "" htn]
  simp

theorem getToneName_claim (h s l : ℚ) (hh : 0 ≤ h) (hs : 0 ≤ s) (hl : 0 ≤ l) :
    getToneName s l h =
      (toneBucketClaim s l).getD (toneIndexClaim h s l (toneBucketClaim s l).length) "" ∧
    toneIndexClaim h s l (toneBucketClaim s l).length < (toneBucketClaim s l).length := by
  have hx : 0 ≤ h * 7 + s * 5 + l * 3 := by positivity
  unfold getToneName toneBucketClaim
  split_ifs <;> exact pick_claim _ h s l hx (by decide)

/-! ### The hue classifier versus the claimed band table -/

theorem choose_claim (x a b : ℚ) (names : List String) (ha : a ≤ x) (hb : x < b)
    (hab : a < b) (hne : names ≠ []) :
    choose x a b names = claimChoose x a b names ∧ claimChoose x a b names ∈ names := by
  have hN : 0 < names.length := List.length_pos.mpr hne
  have hNq : (0 : ℚ) < names.length := by exact_mod_cast hN
  have hpos0 : 0 ≤ (x - a) / (b - a) := div_nonneg (by linarith) (by linarith)
  have hpos1 : (x - a) / (b - a) < 1 := (div_lt_one (by linarith)).mpr (by linarith)
  have hidx0 : 0 ≤ ⌊(x - a) / (b - a) * names.length⌋ :=
    Int.floor_nonneg.mpr (mul_nonneg hpos0 hNq.le)
  have hidx1 : ⌊(x - a) / (b - a) * names.length⌋ < names.length := by
    apply Int.floor_lt.mpr
    calc (x - a) / (b - a) * names.length < 1 * (names.length : ℚ) :=
          mul_lt_mul_of_pos_right hpos1 hNq
    _ = ((names.length : ℤ) : ℚ) := by push_cast; ring
  set fl := ⌊(x - a) / (b - a) * names.length⌋ with hfl
  have hmin : min ((names.length : ℤ) - 1) fl = fl := min_eq_right (by omega)
  have htn : fl.toNat < names.length := by omega
  have hmin2 : min (names.length - 1) fl.toNat = fl.toNat := min_eq_right (by omega)
  have hcl : claimChoose x a b names = names.getD fl.toNat "" := by
    unfold claimChoose
    rw [← hfl, hmin2]
  constructor
  · simp only [choose, jsGetStr]
    rw [← hfl, hmin, if_pos hidx0, hcl, List.get?_eq_getElem?, List.getElem?_eq_getElem htn,
      List.getD_eq_getElem names "" htn]
    simp
  · rw [hcl, List.getD_eq_getElem names "" htn]
    exact List.getElem_mem htn

theorem claimChoose_mem (x a b : ℚ) (names : List String) (ha : a ≤ x) (hb : x < b)
    (hab : a < b) (hne : names ≠ []) (hsub : ∀ y ∈ names, y ∈ hueVocabulary) :
    claimChoose x a b names ∈ hueVocabulary :=
  hsub _ (choose_claim x a b names ha hb hab hne).2

theorem jsMod_norm360 (x : ℚ) (hx0 : 0 ≤ x) (hx1 : x < 360) :
    jsMod (x + 360) 360 = x := by
  rw [jsMod_nonneg_eq _ _ (by linarith) (by norm_num)]
  have hfloor : ⌊(x + 360) / 360⌋ = 1 := by
    rw [Int.floor_eq_iff]
    constructor
    · rw [le_div_iff₀ (by norm_num : (0:ℚ) < 360)]
      push_cast
      linarith
    · rw [div_lt_iff₀ (by norm_num : (0:ℚ) < 360)]
      push_cast
      linarith
  rw [hfloor]
  ring

set_option maxHeartbeats 1000000 in
theorem getHueName_claim (x s : ℚ) (hx0 : 0 ≤ x) (hx1 : x < 360) :
    getHueName x s = hueNameClaim x s ∧ hueNameClaim x s ∈ hueVocabulary := by
  simp only [getHueName, hueNameClaim]
  rw [jsMod_norm360 x hx0 hx1]
  by_cases h0 : s < 8
  · simp only [if_pos h0]
    exact ⟨trivial, by decide⟩
  · simp only [if_neg h0]
    by_cases h1 : x < 15
    · simp only [if_pos h1]
      exact ⟨(choose_claim x 0 15 ["Scarlet", "Red", "Crimson"] hx0 h1 (by norm_num) (by decide)).1,
        claimChoose_mem x 0 15 ["Scarlet", "Red", "Crimson"] hx0 h1 (by norm_num) (by decide) (by decide)⟩
    · simp only [if_neg h1]
      by_cases h2 : x < 35
      · simp only [if_pos h2]
        exact ⟨(choose_claim x 15 35 ["Tangerine", "Orange"] (by linarith) h2 (by norm_num) (by decide)).1,
          claimChoose_mem x 15 35 ["Tangerine", "Orange"] (by linarith) h2 (by norm_num) (by decide) (by decide)⟩
      · simp only [if_neg h2]
        by_cases h3 : x < 50
        · simp only [if_pos h3]
          exact ⟨(choose_claim x 35 50 ["Amber", "Honey"] (by linarith) h3 (by norm_num) (by decide)).1,
            claimChoose_mem x 35 50 ["Amber", "Honey"] (by linarith) h3 (by norm_num) (by decide) (by decide)⟩
        · simp only [if_neg h3]
          by_cases h4 : x < 70
          · simp only [if_pos h4]
            exact ⟨(choose_claim x 50 70 ["Lemon", "Yellow", "Gold"] (by linarith) h4 (by norm_num) (by decide)).1,
              claimChoose_mem x 50 70 ["Lemon", "Yellow", "Gold"] (by linarith) h4 (by norm_num) (by decide) (by decide)⟩
          · simp only [if_neg h4]
            by_cases h5 : x < 85
            · simp only [if_pos h5]
              exact ⟨(choose_claim x 70 85 ["Lime", "Chartreuse"] (by linarith) h5 (by norm_num) (by decide)).1,
                claimChoose_mem x 70 85 ["Lime", "Chartreuse"] (by linarith) h5 (by norm_num) (by decide) (by decide)⟩
            · simp only [if_neg h5]
              by_cases h6 : x < 155
              · simp only [if_pos h6]
                exact ⟨(choose_claim x 85 155 ["Mint", "Green", "Emerald"] (by linarith) h6 (by norm_num) (by decide)).1,
                  claimChoose_mem x 85 155 ["Mint", "Green", "Emerald"] (by linarith) h6 (by norm_num) (by decide) (by decide)⟩
              · simp only [if_neg h6]
                by_cases h7 : x < 180
                · simp only [if_pos h7]
                  exact ⟨(choose_claim x 155 180 ["Teal", "Aqua"] (by linarith) h7 (by norm_num) (by decide)).1,
                    claimChoose_mem x 155 180 ["Teal", "Aqua"] (by linarith) h7 (by norm_num) (by decide) (by decide)⟩
                · simp only [if_neg h7]
                  by_cases h8 : x < 200
                  · simp only [if_pos h8]
                    exact ⟨(choose_claim x 180 200 ["Cyan", "Sky"] (by linarith) h8 (by norm_num) (by decide)).1,
                      claimChoose_mem x 180 200 ["Cyan", "Sky"] (by linarith) h8 (by norm_num) (by decide) (by decide)⟩
                  · simp only [if_neg h8]
                    by_cases h9 : x < 240
                    · simp only [if_pos h9]
                      exact ⟨(choose_claim x 200 240 ["Azure", "Blue", "Cobalt"] (by linarith) h9 (by norm_num) (by decide)).1,
                        claimChoose_mem x 200 240 ["Azure", "Blue", "Cobalt"] (by linarith) h9 (by norm_num) (by decide) (by decide)⟩
                    · simp only [if_neg h9]
                      by_cases h10 : x < 270
                      · simp only [if_pos h10]
                        exact ⟨trivial, by decide⟩
                      · simp only [if_neg h10]
                        by_cases h11 : x < 295
                        · simp only [if_pos h11]
                          exact ⟨(choose_claim x 270 295 ["Violet", "Lavender"] (by linarith) h11 (by norm_num) (by decide)).1,
                            claimChoose_mem x 270 295 ["Violet", "Lavender"] (by linarith) h11 (by norm_num) (by decide) (by decide)⟩
                        · simp only [if_neg h11]
                          by_cases h12 : x < 320
                          · simp only [if_pos h12]
                            exact ⟨(choose_claim x 295 320 ["Purple", "Grape"] (by linarith) h12 (by norm_num) (by decide)).1,
                              claimChoose_mem x 295 320 ["Purple", "Grape"] (by linarith) h12 (by norm_num) (by decide) (by decide)⟩
                          · simp only [if_neg h12]
                            by_cases h13 : x < 335
                            · simp only [if_pos h13]
                              exact ⟨(choose_claim x 320 335 ["Magenta", "Fuchsia"] (by linarith) h13 (by norm_num) (by decide)).1,
                                claimChoose_mem x 320 335 ["Magenta", "Fuchsia"] (by linarith) h13 (by norm_num) (by decide) (by decide)⟩
                            · simp only [if_neg h13]
                              by_cases h14 : x < 350
                              · simp only [if_pos h14]
                                exact ⟨(choose_claim x 335 350 ["Rose", "Cerise", "Rosewood"] (by linarith) h14 (by norm_num) (by decide)).1,
                                  claimChoose_mem x 335 350 ["Rose", "Cerise", "Rosewood"] (by linarith) h14 (by norm_num) (by decide) (by decide)⟩
                              · simp only [if_neg h14]
                                exact ⟨(choose_claim x 350 360 ["Scarlet", "Red", "Crimson"] (by linarith) hx1 (by norm_num) (by decide)).1,
                                  claimChoose_mem x 350 360 ["Scarlet", "Red", "Crimson"] (by linarith) hx1 (by norm_num) (by decide) (by decide)⟩


/-! ### The closest-step scan of the palette generator -/

theorem pickClosest_spec (l : ℚ) (rest : List ℚ) :
    ∀ (i : ℕ) (m : ℚ) (best : ℕ),
      (pickClosest l rest i m best).1 ≤ m ∧
      (∀ k, k < rest.length → (pickClosest l rest i m best).1 ≤ |l - rest.getD k 0|) ∧
      (((pickClosest l rest i m best).2 = best ∧ (pickClosest l rest i m best).1 = m) ∨
        (∃ k, k < rest.length ∧ (pickClosest l rest i m best).2 = i + k ∧
          (pickClosest l rest i m best).1 = |l - rest.getD k 0| ∧
          (pickClosest l rest i m best).1 < m ∧
          ∀ j, j < k → (pickClosest l rest i m best).1 < |l - rest.getD j 0|)) := by
  induction rest with
  | nil =>
    intro i m best
    exact ⟨le_refl m, fun k hk => absurd hk (by simp), Or.inl ⟨rfl, rfl⟩⟩
  | cons t rest ih =>
    intro i m best
    by_cases hlt : |l - t| < m
    · have hres : pickClosest l (t :: rest) i m best = pickClosest l rest (i + 1) |l - t| i := by
        rw [pickClosest, if_pos hlt]
      rw [hres]
      obtain ⟨ih1, ih2, ih3⟩ := ih (i + 1) |l - t| i
      refine ⟨le_trans ih1 hlt.le, ?_, ?_⟩
      · intro k hk
        cases k with
        | zero => exact ih1
        | succ j =>
          have hj : j < rest.length := by simpa using hk
          exact ih2 j hj
      · rcases ih3 with ⟨hb, hm⟩ | ⟨k, hk, hbk, hmk, hlt2, hfirst⟩
        · refine Or.inr ⟨0, by simp, by omega, ?_, by rw [hm]; exact hlt, fun j hj => absurd hj (by omega)⟩
          rw [hm]
          rfl
        · refine Or.inr ⟨k + 1, by simpa using hk, by omega, hmk, lt_trans hlt2 hlt, ?_⟩
          intro j hj
          cases j with
          | zero => exact hlt2
          | succ j2 => exact hfirst j2 (by omega)
    · have hres : pickClosest l (t :: rest) i m best = pickClosest l rest (i + 1) m best := by
        rw [pickClosest, if_neg hlt]
      rw [hres]
      obtain ⟨ih1, ih2, ih3⟩ := ih (i + 1) m best
      have hge : m ≤ |l - t| := not_lt.mp hlt
      refine ⟨ih1, ?_, ?_⟩
      · intro k hk
        cases k with
        | zero => exact le_trans ih1 hge
        | succ j =>
          have hj : j < rest.length := by simpa using hk
          exact ih2 j hj
      · rcases ih3 with hl | ⟨k, hk, hbk, hmk, hlt2, hfirst⟩
        · exact Or.inl hl
        · refine Or.inr ⟨k + 1, by simpa using hk, by omega, hmk, hlt2, ?_⟩
          intro j hj
          cases j with
          | zero => exact lt_of_lt_of_le hlt2 hge
          | succ j2 => exact hfirst j2 (by omega)

theorem lightness_getD_drop (k : ℕ) (hk : k < 9) :
    (lightnessSteps.drop 1).getD k 0 = lightnessSteps.getD (k + 1) 0 := by
  interval_cases k <;> rfl

theorem closestIndex_spec (l : ℚ) :
    closestIndex l < 10 ∧
    (∀ j, j < 10 →
      |l - lightnessSteps.getD (closestIndex l) 0| ≤ |l - lightnessSteps.getD j 0|) ∧
    (∀ j, j < closestIndex l →
      |l - lightnessSteps.getD (closestIndex l) 0| < |l - lightnessSteps.getD j 0|) := by
  have hlen : (lightnessSteps.drop 1).length = 9 := rfl
  have h00 : lightnessSteps.getD 0 (0 : ℚ) = lightnessSteps.getD 0 50 := rfl
  obtain ⟨h1, h2, h3⟩ :=
    pickClosest_spec l (lightnessSteps.drop 1) 1 |l - lightnessSteps.getD 0 50| 0
  have hCI : closestIndex l =
      (pickClosest l (lightnessSteps.drop 1) 1 |l - lightnessSteps.getD 0 50| 0).2 := rfl
  rcases h3 with ⟨hb, hm⟩ | ⟨k, hk, hbk, hmk, hlt2, hfirst⟩
  · refine ⟨?_, ?_, ?_⟩
    · rw [hCI, hb]
      norm_num
    · intro j hj
      rw [hCI, hb, h00]
      cases j with
      | zero => exact le_refl _
      | succ j2 =>
        rw [← lightness_getD_drop j2 (by omega)]
        have h4 := h2 j2 (by rw [hlen]; omega)
        rw [hm] at h4
        exact h4
    · intro j hj
      rw [hCI, hb] at hj
      omega
  · rw [hlen] at hk
    have hL : |l - lightnessSteps.getD (closestIndex l) (0 : ℚ)| =
        (pickClosest l (lightnessSteps.drop 1) 1 |l - lightnessSteps.getD 0 50| 0).1 := by
      rw [hCI, hbk, hmk]
      have hadd : 1 + k = k + 1 := by omega
      rw [hadd, ← lightness_getD_drop k (by omega)]
    refine ⟨?_, ?_, ?_⟩
    · rw [hCI, hbk]
      omega
    · intro j hj
      rw [hL]
      cases j with
      | zero =>
        rw [h00]
        exact h1
      | succ j2 =>
        rw [← lightness_getD_drop j2 (by omega)]
        exact h2 j2 (by rw [hlen]; omega)
    · intro j hj
      rw [hL]
      rw [hCI, hbk] at hj
      cases j with
      | zero =>
        rw [h00]
        exact hlt2
      | succ j2 =>
        rw [← lightness_getD_drop j2 (by omega)]
        exact hfirst j2 (by omega)

/-! ### Shape of the generated palette -/

theorem paletteStep_isChosen (hex : List Char) (base : HSL) (ci i : ℕ) :
    (paletteStep hex base ci i).isChosenColor = decide (i = ci) := by
  unfold paletteStep
  by_cases h : i = ci
  · rw [if_pos h, decide_eq_true h]
  · rw [if_neg h]
    simp [h]

theorem paletteStep_step (hex : List Char) (base : HSL) (ci i : ℕ) :
    (paletteStep hex base ci i).step = stepValues.getD i 0 := by
  unfold paletteStep
  by_cases h : i = ci
  · rw [if_pos h]
  · rw [if_neg h]

theorem range_filter_eq_self (n c : ℕ) (hc : c < n) :
    (List.range n).filter (fun i => decide (i = c)) = [c] := by
  induction n with
  | zero => omega
  | succ n ih =>
    rw [List.range_succ, List.filter_append]
    by_cases h : c < n
    · rw [ih h]
      have hn : List.filter (fun i => decide (i = c)) [n] = [] := by
        simp only [List.filter_cons, List.filter_nil]
        rw [if_neg (by simp; omega)]
      rw [hn]
      simp
    · have hcn : c = n := by omega
      subst hcn
      have hr : (List.range c).filter (fun i => decide (i = c)) = [] := by
        rw [List.filter_eq_nil_iff]
        intro a ha
        simp only [List.mem_range] at ha
        simp
        omega
      rw [hr]
      simp

theorem classifyHexColor_eq (hex : List Char) (cls : ColorClassification)
    (h : classifyHexColor hex = some cls) :
    ∃ rgb, hexToRgb hex = some rgb ∧
      cls.hsl = rgbToHsl rgb.r rgb.g rgb.b ∧
      cls.hueGroup = getHueName cls.hsl.h cls.hsl.s ∧
      cls.tone = getToneName cls.hsl.s cls.hsl.l cls.hsl.h ∧
      cls.fullName = (if cls.hueGroup = "Neutral" then cls.tone ++ " Neutral"
        else cls.tone ++ " " ++ cls.hueGroup) ∧
      cls.tokenName = String.mk (lowerFirst (stripWsHyphens cls.fullName.toList)) := by
  unfold classifyHexColor at h
  rw [Option.map_eq_some'] at h
  obtain ⟨rgb, hrgb, hcls⟩ := h
  refine ⟨rgb, hrgb, ?_⟩
  rw [← hcls]
  exact ⟨rfl, rfl, rfl, rfl, rfl⟩

theorem generateColorPalette_eq (hex : List Char) (p : ColorPalette)
    (h : generateColorPalette hex = some p) :
    ∃ cls, classifyHexColor hex = some cls ∧
      p.classification = cls ∧
      p.name = cls.fullName ∧ p.tokenName = cls.tokenName ∧
      p.chosenStep = stepValues.getD (closestIndex cls.hsl.l) 500 ∧
      p.steps = (List.range 10).map (paletteStep hex cls.hsl (closestIndex cls.hsl.l)) := by
  unfold generateColorPalette at h
  rw [Option.map_eq_some'] at h
  obtain ⟨cls, hcls, hp⟩ := h
  refine ⟨cls, hcls, ?_⟩
  rw [← hp]
  exact ⟨rfl, rfl, rfl, rfl, rfl⟩

theorem paletteStep_chosen_hex (hex : List Char) (base : HSL) (ci : ℕ) :
    paletteStep hex base ci ci =
      { step := stepValues.getD ci 0, hex := hex.map jsToUpper, isChosenColor := true } := by
  unfold paletteStep
  rw [if_pos rfl]

theorem paletteStep_not_chosen (hex : List Char) (base : HSL) (ci i : ℕ) (hne : i ≠ ci) :
    paletteStep hex base ci i =
      { step := stepValues.getD i 0
      , hex := hslToHex base.h
          (if 7 < i then min ((if i < 2 then base.s * 0.3 else base.s) * 1.2) 100
           else if i < 2 then base.s * 0.3 else base.s)
          (lightnessSteps.getD i 0)
      , isChosenColor := false } := by
  unfold paletteStep
  rw [if_neg hne]

theorem adjust_eq_claim (i : ℕ) (s : ℚ) :
    (if 7 < i then min ((if i < 2 then s * 0.3 else s) * 1.2) 100
     else if i < 2 then s * 0.3 else s) =
      (if i ≤ 1 then s * 0.3 else if 8 ≤ i then min (s * 1.2) 100 else s) := by
  by_cases h2 : i < 2
  · rw [if_neg (by omega), if_pos h2, if_pos (by omega)]
  · by_cases h8 : 7 < i
    · rw [if_pos h8, if_neg h2, if_neg (by omega), if_pos (by omega)]
    · rw [if_neg h8, if_neg h2, if_neg (by omega), if_neg (by omega)]

theorem steps_filter_chosen (hex : List Char) (base : HSL) (ci : ℕ) (hci : ci < 10) :
    (((List.range 10).map (paletteStep hex base ci)).filter (fun st => st.isChosenColor)) =
      [paletteStep hex base ci ci] := by
  rw [List.map_filter]
  have hpred : ((fun st => st.isChosenColor) ∘ (paletteStep hex base ci)) =
      fun i => decide (i = ci) := by
    funext i
    exact paletteStep_isChosen hex base ci i
  rw [hpred, range_filter_eq_self 10 ci hci]
  rfl

theorem steps_get (hex : List Char) (base : HSL) (ci : ℕ) (i : ℕ) (hi : i < 10) :
    (((List.range 10).map (paletteStep hex base ci)).get? i) =
      some (paletteStep hex base ci i) := by
  rw [List.get?_map, List.get?_range hi]
  rfl

theorem steps_map_step (hex : List Char) (base : HSL) (ci : ℕ) :
    ((List.range 10).map (paletteStep hex base ci)).map (fun st => st.step) = stepValues := by
  rw [List.map_map]
  have hcmp : ((fun st => st.step) ∘ paletteStep hex base ci) = fun i => stepValues.getD i 0 :=
    funext (paletteStep_step hex base ci)
  rw [hcmp]
  rfl

/-! ### Uppercasing preserves hex validity -/

theorem jsToUpper_hash_iff {c : Char} : jsToUpper c = '#' ↔ c = '#' := by
  constructor
  · intro h
    have ht := jsToUpper_toNat c
    rw [h] at ht
    have h35 : ('#' : Char).toNat = 35 := rfl
    rw [h35] at ht
    by_cases hlc : 97 ≤ c.toNat ∧ c.toNat ≤ 122
    · rw [if_pos hlc] at ht
      omega
    · rw [if_neg hlc] at ht
      exact char_toNat_inj (h35.trans ht).symm
  · intro h
    rw [h]
    rfl

theorem specHexBody_map (l : List Char) :
    specHexBody (l.map jsToUpper) = specHexBody l := by
  unfold specHexBody
  rw [List.length_map, List.all_map]
  have hcmp : (isHexDigitChar ∘ jsToUpper) = isHexDigitChar := funext isHexDigitChar_jsToUpper
  rw [hcmp]

theorem specValidHex_cons_ne {c : Char} (rest : List Char) (hc : c ≠ '#') :
    specValidHex (c :: rest) = specHexBody (c :: rest) := by
  unfold specValidHex
  split
  · rename_i rest2 heq
    injection heq with h1 h2
    exact absurd h1 hc
  · rfl

theorem specValidHex_map (hex : List Char) :
    specValidHex (hex.map jsToUpper) = specValidHex hex := by
  rcases hex with _ | ⟨c, rest⟩
  · rfl
  · by_cases hc : c = '#'
    · subst hc
      rw [List.map_cons]
      have hup : jsToUpper '#' = '#' := rfl
      rw [hup]
      exact specHexBody_map rest
    · rw [List.map_cons]
      have hc2 : jsToUpper c ≠ '#' := fun hcc => hc (jsToUpper_hash_iff.mp hcc)
      rw [specValidHex_cons_ne _ hc2, specValidHex_cons_ne _ hc]
      rw [← List.map_cons]
      exact specHexBody_map (c :: rest)

/-! ### WCAG luminance and contrast facts -/

theorem luminanceChannel_nonneg (n : ℕ) : 0 ≤ luminanceChannel n := by
  simp only [luminanceChannel]
  split_ifs with h
  · positivity
  · positivity

theorem luminanceChannel_le_one {n : ℕ} (h : n ≤ 255) : luminanceChannel n ≤ 1 := by
  have hc : (n : ℝ) ≤ 255 := by exact_mod_cast h
  simp only [luminanceChannel]
  split_ifs with hb
  · rw [div_le_one (by norm_num : (0:ℝ) < 12.92)]
    calc (n : ℝ) / 255 ≤ 0.03928 := hb
    _ ≤ 12.92 := by norm_num
  · apply Real.rpow_le_one (by positivity) ?base_le (by norm_num)
    case base_le =>
      rw [div_le_one (by norm_num : (0:ℝ) < 1.055)]
      have hn1 : (n : ℝ) / 255 ≤ 1 := by
        rw [div_le_one (by norm_num : (0:ℝ) < 255)]
        exact hc
      linarith

theorem luminanceChannel_pos {n : ℕ} (h : 1 ≤ n) : 0 < luminanceChannel n := by
  have hc : (1 : ℝ) ≤ (n : ℝ) := by exact_mod_cast h
  simp only [luminanceChannel]
  split_ifs with hb
  · positivity
  · apply Real.rpow_pos_of_pos
    positivity

theorem luminanceChannel_255 : luminanceChannel 255 = 1 := by
  simp only [luminanceChannel]
  rw [if_neg (by norm_num)]
  have hbase : (((255 : ℕ) : ℝ) / 255 + 0.055) / 1.055 = 1 := by norm_num
  rw [hbase, Real.one_rpow]

theorem luminanceChannel_0 : luminanceChannel 0 = 0 := by
  simp only [luminanceChannel]
  rw [if_pos (by norm_num)]
  norm_num

theorem luminanceChannel_10 : luminanceChannel 10 = ((10 : ℝ) / 255) / 12.92 := by
  simp only [luminanceChannel]
  rw [if_pos (by norm_num)]
  norm_num

theorem byte_le (c0 c1 : Char) : 16 * hexVal c0 + hexVal c1 ≤ 255 := by
  have h0 := hexVal_le c0
  have h1 := hexVal_le c1
  omega

theorem hexToRgbClean_le (l : List Char) (rgb : RGB) (h : hexToRgbClean l = some rgb) :
    rgb.r ≤ 255 ∧ rgb.g ≤ 255 ∧ rgb.b ≤ 255 := by
  simp only [hexToRgbClean] at h
  split at h
  · split at h
    · split at h
      · rw [Option.some_inj] at h
        rw [← h]
        exact ⟨byte_le _ _, byte_le _ _, byte_le _ _⟩
      · exact Option.noConfusion h
    · exact Option.noConfusion h
  · split at h
    · split at h
      · rw [Option.some_inj] at h
        rw [← h]
        exact ⟨byte_le _ _, byte_le _ _, byte_le _ _⟩
      · exact Option.noConfusion h
    · exact Option.noConfusion h

theorem hexToRgb_le (hex : List Char) (rgb : RGB) (h : hexToRgb hex = some rgb) :
    rgb.r ≤ 255 ∧ rgb.g ≤ 255 ∧ rgb.b ≤ 255 := by
  unfold hexToRgb at h
  exact hexToRgbClean_le _ rgb h

theorem getLuminanceHex_eq (hex : List Char) (rgb : RGB) (h : hexToRgb hex = some rgb) :
    getLuminanceHex hex =
      some (0.2126 * luminanceChannel rgb.r + 0.7152 * luminanceChannel rgb.g
        + 0.0722 * luminanceChannel rgb.b) := by
  unfold getLuminanceHex
  rw [h]
  rfl

theorem getLuminanceHex_bounds (hex : List Char) (L : ℝ) (h : getLuminanceHex hex = some L) :
    0 ≤ L ∧ L ≤ 1 := by
  unfold getLuminanceHex at h
  rw [Option.map_eq_some'] at h
  obtain ⟨rgb, hrgb, hL⟩ := h
  obtain ⟨hr, hg, hb⟩ := hexToRgb_le hex rgb hrgb
  rw [← hL]
  constructor
  · have c1 := luminanceChannel_nonneg rgb.r
    have c2 := luminanceChannel_nonneg rgb.g
    have c3 := luminanceChannel_nonneg rgb.b
    positivity
  · have c1 := luminanceChannel_le_one hr
    have c2 := luminanceChannel_le_one hg
    have c3 := luminanceChannel_le_one hb
    have c4 := luminanceChannel_nonneg rgb.r
    have c5 := luminanceChannel_nonneg rgb.g
    have c6 := luminanceChannel_nonneg rgb.b
    nlinarith

theorem lum_white : getLuminanceHex (String.toList "#FFFFFF") = some 1 := by
  have hparse : hexToRgb (String.toList "#FFFFFF") = some { r := 255, g := 255, b := 255 } := by
    rfl
  rw [getLuminanceHex_eq _ _ hparse, luminanceChannel_255]
  norm_num

theorem lum_dark : getLuminanceHex (String.toList "#0A0A0A") = some (luminanceChannel 10) := by
  have hparse : hexToRgb (String.toList "#0A0A0A") = some { r := 10, g := 10, b := 10 } := by
    rfl
  rw [getLuminanceHex_eq _ _ hparse]
  congr 1
  ring

theorem contrastWhite_eq (hex : List Char) (L : ℝ) (h : getLuminanceHex hex = some L)
    (hle : L ≤ 1) :
    getContrastRatio hex (String.toList "#FFFFFF") = some ((1 + 0.05) / (L + 0.05)) := by
  unfold getContrastRatio
  rw [h, lum_white]
  show some ((max L 1 + 0.05) / (min L 1 + 0.05)) = _
  rw [max_eq_right hle, min_eq_left hle]

theorem contrastDark_eq (hex : List Char) (L : ℝ) (h : getLuminanceHex hex = some L)
    (hge : luminanceChannel 10 ≤ L) :
    getContrastRatio hex (String.toList "#0A0A0A") =
      some ((L + 0.05) / (luminanceChannel 10 + 0.05)) := by
  unfold getContrastRatio
  rw [h, lum_dark]
  show some ((max L (luminanceChannel 10) + 0.05) / (min L (luminanceChannel 10) + 0.05)) = _
  rw [max_eq_left hge, min_eq_right hge]

theorem chan10_le_chan31 : luminanceChannel 10 ≤ luminanceChannel 31 := by
  rw [luminanceChannel_10]
  simp only [luminanceChannel]
  rw [if_neg (by norm_num)]
  calc ((10:ℝ)/255)/12.92
      ≤ ((((31:ℕ):ℝ)/255 + 0.055)/1.055) ^ (3:ℕ) := by norm_num
    _ = ((((31:ℕ):ℝ)/255 + 0.055)/1.055) ^ ((3:ℕ):ℝ) := (Real.rpow_natCast _ 3).symm
    _ ≤ ((((31:ℕ):ℝ)/255 + 0.055)/1.055) ^ (2.4:ℝ) :=
        Real.rpow_le_rpow_of_exponent_ge (by norm_num) (by norm_num) (by norm_num)

theorem chan31_le_chan242 : luminanceChannel 31 ≤ luminanceChannel 242 := by
  simp only [luminanceChannel]
  rw [if_neg (by norm_num), if_neg (by norm_num)]
  exact Real.rpow_le_rpow (by norm_num) (by norm_num) (by norm_num)

/-! ### Claim theorems -/

/-- C1 (counterexample): for the 3-digit shorthand input `"#f53"` the
chosen step's hex is the uppercased input `"#F53"`, not the normalized
6-digit `"#FF5533"` that the claim requires. -/
theorem C1_counterexample :
    ((generateColorPalette (String.toList "#f53")).map fun p =>
      (p.steps.filter fun st => st.isChosenColor).map fun st => st.hex) =
        some [String.toList "#F53"] ∧
    String.toList "#F53" ≠ String.toList "#FF5533" := by
  constructor
  · with_unfolding_all decide
  · decide

/-- C1 (amended): for every hex string accepted by `generateColorPalette`,
exactly one of the 10 returned steps has `isChosenColor = true`, and that
step's hex equals the input string uppercased (which is the normalized
6-digit form only when the input was already 6-digit with a leading `#`;
3-digit shorthand or `#`-less input is passed through uppercased, not
expanded). -/
theorem C1_amended (hx : List Char) (p : ColorPalette)
    (hp : generateColorPalette hx = some p) :
    (p.steps.filter fun st => st.isChosenColor).map (fun st => st.hex) =
      [hx.map jsToUpper] := by
  obtain ⟨cls, hcls, hclass, hn, ht, hcs, hsteps⟩ := generateColorPalette_eq hx p hp
  rw [hsteps, steps_filter_chosen hx cls.hsl _ (closestIndex_spec cls.hsl.l).1,
    paletteStep_chosen_hex]
  rfl

/-- C1 (witness): the amended claim instantiated at `"#FF0000"`. -/
theorem C1_witness :
    ((generateColorPalette (String.toList "#FF0000")).map fun p =>
      (p.steps.filter fun st => st.isChosenColor).map fun st => st.hex) =
      some [(String.toList "#FF0000").map jsToUpper] := by
  rcases hE : generateColorPalette (String.toList "#FF0000") with _ | p
  · have hs : (generateColorPalette (String.toList "#FF0000")).isSome = true := by
      with_unfolding_all decide
    rw [hE] at hs
    simp at hs
  · rw [Option.map_some']
    rw [C1_amended _ p hE]

/-- C3: every palette has exactly 10 steps, labelled `[50,...,900]` in
ascending order, and `chosenStep` is the step label (not the index) at
the index of minimal absolute difference between the target lightness
table and the input's HSL lightness, ties resolved to the lowest index. -/
theorem C3 (hx : List Char) (p : ColorPalette) (hp : generateColorPalette hx = some p) :
    p.steps.length = 10 ∧
    p.steps.map (fun st => st.step) = stepValues ∧
    stepValues = [50, 100, 200, 300, 400, 500, 600, 700, 800, 900] ∧
    List.Chain' (· < ·) (p.steps.map fun st => st.step) ∧
    lightnessSteps = [95, 90, 80, 65, 50, 40, 30, 20, 12, 8] ∧
    ∃ c, c < 10 ∧ p.chosenStep = stepValues.getD c 500 ∧
      (∀ j, j < 10 → |p.classification.hsl.l - lightnessSteps.getD c 0| ≤
        |p.classification.hsl.l - lightnessSteps.getD j 0|) ∧
      (∀ j, j < c → |p.classification.hsl.l - lightnessSteps.getD c 0| <
        |p.classification.hsl.l - lightnessSteps.getD j 0|) := by
  obtain ⟨cls, hcls, hclass, hn, ht, hcs, hsteps⟩ := generateColorPalette_eq hx p hp
  obtain ⟨hlt, hle, hfirst⟩ := closestIndex_spec cls.hsl.l
  refine ⟨?_, ?_, rfl, ?_, rfl, closestIndex cls.hsl.l, hlt, ?_, ?_, ?_⟩
  · rw [hsteps]
    rfl
  · rw [hsteps]
    exact steps_map_step hx cls.hsl _
  · rw [hsteps, steps_map_step hx cls.hsl _]
    show List.Chain' (· < ·) [50, 100, 200, 300, 400, 500, 600, 700, 800, 900]
    simp [List.chain'_cons]
  · rw [hcs]
  · rw [hclass]
    exact hle
  · rw [hclass]
    exact hfirst

/-- C3 (witness): the claim instantiated at `"#FF0000"` (HSL lightness
50, closest to target 50 at index 4, step label 400). -/
theorem C3_witness :
    ((generateColorPalette (String.toList "#FF0000")).map fun p =>
      (p.steps.length, p.chosenStep)) = some (10, 400) := by
  rcases hE : generateColorPalette (String.toList "#FF0000") with _ | p
  · have hs : (generateColorPalette (String.toList "#FF0000")).isSome = true := by
      with_unfolding_all decide
    rw [hE] at hs
    simp at hs
  · have h3 := C3 _ p hE
    have hcs : (generateColorPalette (String.toList "#FF0000")).map
        (fun p => p.chosenStep) = some 400 := by
      with_unfolding_all decide
    rw [hE, Option.map_some', Option.some_inj] at hcs
    rw [Option.map_some', h3.1, hcs]

/-- C4: the tone classifier selects the bucket given by the claimed
13-bucket table and returns that bucket's adjective at index
`floor((h*7 + s*5 + l*3) mod bucketSize)`, which is always in range. -/
theorem C4 (h s l : ℚ) (hh0 : 0 ≤ h) (hh1 : h < 360) (hs0 : 0 ≤ s) (hs1 : s ≤ 100)
    (hl0 : 0 ≤ l) (hl1 : l ≤ 100) :
    getToneName s l h =
      (toneBucketClaim s l).getD (toneIndexClaim h s l (toneBucketClaim s l).length) "" ∧
    toneIndexClaim h s l (toneBucketClaim s l).length < (toneBucketClaim s l).length :=
  getToneName_claim h s l hh0 hs0 hl0

/-- C4 (witness): the claim instantiated at `h = 217, s = 92, l = 60`
(the vivid bucket), with the concrete selected adjective. -/
theorem C4_witness :
    getToneName 92 60 217 =
      (toneBucketClaim 92 60).getD
        (toneIndexClaim 217 92 60 (toneBucketClaim 92 60).length) "" ∧
    getToneName 92 60 217 = "Strong" := by
  refine ⟨(C4 217 92 60 (by norm_num) (by norm_num) (by norm_num) (by norm_num)
    (by norm_num) (by norm_num)).1, ?_⟩
  with_unfolding_all decide

/-- C5: the hue classifier returns `"Neutral"` whenever `s < 8`, agrees
with the claimed 14-band table with in-band index
`min(N-1, floor(((h-a)/(b-a))*N))`, and always returns a non-empty
string from the fixed vocabulary. -/
theorem C5 (h s : ℚ) (hh0 : 0 ≤ h) (hh1 : h < 360) (hs0 : 0 ≤ s) (hs1 : s ≤ 100) :
    getHueName h s = hueNameClaim h s ∧
    getHueName h s ∈ hueVocabulary ∧
    getHueName h s ≠ "" ∧
    (s < 8 → getHueName h s = "Neutral") := by
  obtain ⟨heq, hmem⟩ := getHueName_claim h s hh0 hh1
  have hmem2 : getHueName h s ∈ hueVocabulary := heq ▸ hmem
  refine ⟨heq, hmem2, ?_, ?_⟩
  · have hne : ∀ y ∈ hueVocabulary, y ≠ "" := by decide
    exact hne _ hmem2
  · intro hlt
    unfold getHueName
    rw [if_pos hlt]

/-- C5 (witness): the claim instantiated at `h = 210, s = 100`
(the Azure/Blue/Cobalt band, first third). -/
theorem C5_witness :
    getHueName 210 100 = hueNameClaim 210 100 ∧
    getHueName 210 100 ∈ hueVocabulary ∧
    getHueName 210 100 = "Azure" := by
  obtain ⟨h1, h2, h3, h4⟩ := C5 210 100 (by norm_num) (by norm_num) (by norm_num) (by norm_num)
  refine ⟨h1, h2, ?_⟩
  with_unfolding_all decide

/-- C6: every non-chosen step at index `i` is synthesized at the target
lightness for index `i` with the input's hue, and with the input's
saturation multiplied by 0.3 for `i ∈ {0,1}`, multiplied by 1.2 and
capped at 100 for `i ∈ {8,9}`, and unchanged for `i ∈ {2,...,7}`. -/
theorem C6 (hx : List Char) (p : ColorPalette) (i : ℕ) (st : ColorStep)
    (hp : generateColorPalette hx = some p)
    (hst : p.steps.get? i = some st)
    (hnc : st.isChosenColor = false) :
    st.hex = hslToHex p.classification.hsl.h
      (if i ≤ 1 then p.classification.hsl.s * 0.3
       else if 8 ≤ i then min (p.classification.hsl.s * 1.2) 100
       else p.classification.hsl.s)
      (lightnessSteps.getD i 0) := by
  obtain ⟨cls, hcls, hclass, hn, ht, hcs, hsteps⟩ := generateColorPalette_eq hx p hp
  rw [hsteps] at hst
  have hi : i < 10 := by
    by_contra hge
    rw [List.get?_len_le (by simpa using not_lt.mp hge)] at hst
    exact Option.noConfusion hst
  rw [steps_get hx cls.hsl _ i hi, Option.some_inj] at hst
  have hne : i ≠ closestIndex cls.hsl.l := by
    intro hcontra
    rw [← hst, paletteStep_isChosen] at hnc
    rw [decide_eq_false_iff_not] at hnc
    exact hnc hcontra
  rw [← hst, paletteStep_not_chosen hx cls.hsl _ i hne, hclass]
  show hslToHex cls.hsl.h _ _ = hslToHex cls.hsl.h _ _
  rw [adjust_eq_claim i cls.hsl.s]

/-- C6 (witness): for `"#FF0000"` (HSL (0,100,50), chosen index 4) the
step at index 0 is synthesized at lightness 95 with saturation 30,
producing `"#F6EEEE"`. -/
theorem C6_witness :
    ((generateColorPalette (String.toList "#FF0000")).map fun p =>
      (p.steps.get? 0).map fun st => st.hex) = some (some (String.toList "#F6EEEE")) := by
  rcases hE : generateColorPalette (String.toList "#FF0000") with _ | p
  · have hs : (generateColorPalette (String.toList "#FF0000")).isSome = true := by
      with_unfolding_all decide
    rw [hE] at hs
    simp at hs
  · rw [Option.map_some']
    have hst : p.steps.get? 0 =
        some { step := 50, hex := String.toList "#F6EEEE", isChosenColor := false } := by
      have hm : (generateColorPalette (String.toList "#FF0000")).map
          (fun p => p.steps.get? 0) =
            some (some { step := 50, hex := String.toList "#F6EEEE"
                       , isChosenColor := false }) := by
        with_unfolding_all decide
      rw [hE, Option.map_some', Option.some_inj] at hm
      exact hm
    have hhsl : p.classification.hsl = { h := 0, s := 100, l := 50 } := by
      have hm : (generateColorPalette (String.toList "#FF0000")).map
          (fun p => p.classification.hsl) = some { h := 0, s := 100, l := 50 } := by
        with_unfolding_all decide
      rw [hE, Option.map_some', Option.some_inj] at hm
      exact hm
    have h6 := C6 _ p 0 _ hE hst rfl
    rw [hst, Option.map_some', h6, hhsl]
    with_unfolding_all decide

/-- C7: `classifyHexColor` and `generateColorPalette` fail exactly when
the input fails the pattern of one optional leading `#` followed by
exactly 3 or 6 hex digits; the failure originates at `hexToRgb` (the
conversion layer) and is the only failure (every step hex computed
inside the palette loop parses, so the contrast computations cannot
fail). -/
theorem C7 (hx : List Char) :
    ((classifyHexColor hx).isSome = specValidHex hx) ∧
    ((generateColorPalette hx).isSome = specValidHex hx) ∧
    ((hexToRgb hx).isSome = specValidHex hx) ∧
    (∀ p, generateColorPalette hx = some p →
      ∀ st ∈ p.steps, (hexToRgb st.hex).isSome = true) := by
  have hc : (classifyHexColor hx).isSome = (hexToRgb hx).isSome := by
    unfold classifyHexColor
    exact Option.isSome_map'
  have hg : (generateColorPalette hx).isSome = (classifyHexColor hx).isSome := by
    unfold generateColorPalette
    exact Option.isSome_map'
  refine ⟨hc.trans (hexToRgb_isSome hx), (hg.trans hc).trans (hexToRgb_isSome hx),
    hexToRgb_isSome hx, ?_⟩
  intro p hp st hmem
  have hvalid : specValidHex hx = true := by
    rw [← hexToRgb_isSome, ← hc, ← hg, hp]
    rfl
  obtain ⟨cls, hcls, hclass, hn, ht, hcs, hsteps⟩ := generateColorPalette_eq hx p hp
  rw [hsteps, List.mem_map] at hmem
  obtain ⟨i, hi, hstep⟩ := hmem
  by_cases hci : i = closestIndex cls.hsl.l
  · rw [← hstep, hci, paletteStep_chosen_hex]
    show (hexToRgb (hx.map jsToUpper)).isSome = true
    rw [hexToRgb_isSome, specValidHex_map, hvalid]
  · rw [← hstep, paletteStep_not_chosen hx cls.hsl _ i hci]
    show (hexToRgb (hslToHex _ _ _)).isSome = true
    unfold hslToHex
    rw [hexToRgb_rgbToHex]
    rfl

/-- C7 (witness): the invalid input `"notacolor"` is rejected by both
entry points and the valid input `"#3B82F6"` is accepted. -/
theorem C7_witness :
    (classifyHexColor (String.toList "notacolor")).isSome = false ∧
    specValidHex (String.toList "notacolor") = false ∧
    (generateColorPalette (String.toList "#3B82F6")).isSome = true ∧
    specValidHex (String.toList "#3B82F6") = true := by
  have h1 := C7 (String.toList "notacolor")
  have h2 := C7 (String.toList "#3B82F6")
  refine ⟨?_, by decide, ?_, by decide⟩
  · rw [h1.1]
    decide
  · rw [h2.2.1]
    decide

/-- C8: `classifyHexColor` composes `fullName` as `"{tone} Neutral"`
when the hue group is `"Neutral"` and `"{tone} {hueGroup}"` otherwise,
and `tokenName` is `fullName` with whitespace and hyphens removed and
only its first character lowercased. -/
theorem C8 (hx : List Char) (cls : ColorClassification)
    (h : classifyHexColor hx = some cls) :
    cls.fullName = (if cls.hueGroup = "Neutral" then cls.tone ++ " Neutral"
      else cls.tone ++ " " ++ cls.hueGroup) ∧
    cls.tokenName = String.mk (lowerFirst (stripWsHyphens cls.fullName.toList)) := by
  obtain ⟨rgb, h1, h2, h3, h4, h5, h6⟩ := classifyHexColor_eq hx cls h
  exact ⟨h5, h6⟩

/-- C8 (witness): `"#99CCFF"` classifies as `"Bright Azure"` with token
name `"brightAzure"` (internal capitalization preserved). -/
theorem C8_witness :
    (classifyHexColor (String.toList "#99CCFF")).map (fun c => (c.fullName, c.tokenName)) =
      some ("Bright Azure", "brightAzure") := by
  rcases hE : classifyHexColor (String.toList "#99CCFF") with _ | cls
  · have hs : (classifyHexColor (String.toList "#99CCFF")).isSome = true := by
      with_unfolding_all decide
    rw [hE] at hs
    simp at hs
  · obtain ⟨h1, h2⟩ := C8 _ cls hE
    have hf : (classifyHexColor (String.toList "#99CCFF")).map (fun c => c.fullName) =
        some "Bright Azure" := by
      with_unfolding_all decide
    rw [hE, Option.map_some', Option.some_inj] at hf
    rw [Option.map_some']
    refine congrArg some (Prod.ext hf ?_)
    rw [h2, hf]
    decide

/-- C9: for all rational channel inputs, `hexToRgb (rgbToHex r g b)`
succeeds and returns each channel rounded to the nearest integer
(half-up) and clamped to `[0,255]`. -/
theorem C9 (r g b : ℚ) :
    hexToRgb (rgbToHex r g b) =
      some { r := jsClampRound r, g := jsClampRound g, b := jsClampRound b } :=
  hexToRgb_rgbToHex r g b

/-- C10: every non-chosen step's hex is `#` followed by exactly six
uppercase hexadecimal digits, regardless of the input's form. -/
theorem C10 (hx : List Char) (p : ColorPalette) (hp : generateColorPalette hx = some p)
    (st : ColorStep) (hmem : st ∈ p.steps) (hnc : st.isChosenColor = false) :
    isNormalizedHex st.hex = true := by
  obtain ⟨cls, hcls, hclass, hn, ht, hcs, hsteps⟩ := generateColorPalette_eq hx p hp
  rw [hsteps, List.mem_map] at hmem
  obtain ⟨i, hi, hstep⟩ := hmem
  have hne : i ≠ closestIndex cls.hsl.l := by
    intro hcontra
    rw [← hstep, paletteStep_isChosen, decide_eq_false_iff_not] at hnc
    exact hnc hcontra
  rw [← hstep, paletteStep_not_chosen hx cls.hsl _ i hne]
  show isNormalizedHex (hslToHex _ _ _) = true
  unfold hslToHex
  exact isNormalizedHex_rgbToHex _ _ _

/-- C10 (witness): for the lowercase 3-digit `#`-less-normalized input
`"#abc"`, the (non-chosen) step at index 0 has a normalized hex. -/
theorem C10_witness :
    ((generateColorPalette (String.toList "#abc")).map fun p =>
      (p.steps.get? 0).map fun st => isNormalizedHex st.hex) = some (some true) := by
  rcases hE : generateColorPalette (String.toList "#abc") with _ | p
  · have hs : (generateColorPalette (String.toList "#abc")).isSome = true := by
      with_unfolding_all decide
    rw [hE] at hs
    simp at hs
  · rw [Option.map_some']
    have hst : p.steps.get? 0 =
        some { step := 50, hex := String.toList "#F1F2F3", isChosenColor := false } := by
      have hm : (generateColorPalette (String.toList "#abc")).map
          (fun p => p.steps.get? 0) =
            some (some { step := 50, hex := String.toList "#F1F2F3"
                       , isChosenColor := false }) := by
        with_unfolding_all decide
      rw [hE, Option.map_some', Option.some_inj] at hm
      exact hm
    rw [hst, Option.map_some']
    refine congrArg some (congrArg some ?_)
    exact C10 _ p hE _ (List.get?_mem hst) rfl

set_option maxRecDepth 10000 in
/-- C2 (counterexample): the claim as stated — `contrastWhite`
non-increasing and `contrastDark` non-decreasing from step 50 to step
900 — is false: in the palette of `"#000000"`, step 50 (a light gray)
has a smaller white-contrast than step 900 (pure black). -/
theorem C2_counterexample :
    ¬ (∀ (hx : List Char) (p : ColorPalette), generateColorPalette hx = some p →
        ∀ (i j : ℕ) (si sj : ColorStep), i ≤ j →
          p.steps.get? i = some si → p.steps.get? j = some sj →
          (∀ ci cj : ℝ, getContrastRatio si.hex (String.toList "#FFFFFF") = some ci →
            getContrastRatio sj.hex (String.toList "#FFFFFF") = some cj → cj ≤ ci) ∧
          (∀ di dj : ℝ, getContrastRatio si.hex (String.toList "#0A0A0A") = some di →
            getContrastRatio sj.hex (String.toList "#0A0A0A") = some dj → di ≤ dj)) := by
  intro hclaim
  rcases hE : generateColorPalette (String.toList "#000000") with _ | p
  · have hs : (generateColorPalette (String.toList "#000000")).isSome = true := by
      with_unfolding_all decide
    rw [hE] at hs
    simp at hs
  · have hst0 : p.steps.get? 0 =
        some { step := 50, hex := String.toList "#F2F2F2", isChosenColor := false } := by
      have hm : (generateColorPalette (String.toList "#000000")).map
          (fun p => p.steps.get? 0) =
            some (some { step := 50, hex := String.toList "#F2F2F2"
                       , isChosenColor := false }) := by
        with_unfolding_all decide
      rw [hE, Option.map_some', Option.some_inj] at hm
      exact hm
    have hst9 : p.steps.get? 9 =
        some { step := 900, hex := String.toList "#000000", isChosenColor := true } := by
      have hm : (generateColorPalette (String.toList "#000000")).map
          (fun p => p.steps.get? 9) =
            some (some { step := 900, hex := String.toList "#000000"
                       , isChosenColor := true }) := by
        with_unfolding_all decide
      rw [hE, Option.map_some', Option.some_inj] at hm
      exact hm
    have hp0 : hexToRgb (String.toList "#F2F2F2") =
        some { r := 242, g := 242, b := 242 } := by rfl
    have hp9 : hexToRgb (String.toList "#000000") = some { r := 0, g := 0, b := 0 } := by rfl
    have hL0 := getLuminanceHex_eq _ _ hp0
    have hL9 := getLuminanceHex_eq _ _ hp9
    have hL9z : (0.2126 * luminanceChannel 0 + 0.7152 * luminanceChannel 0
        + 0.0722 * luminanceChannel 0 : ℝ) = 0 := by
      rw [luminanceChannel_0]
      ring
    rw [hL9z] at hL9
    have hb0 := getLuminanceHex_bounds _ _ hL0
    have hcw0 := contrastWhite_eq _ _ hL0 hb0.2
    have hcw9 := contrastWhite_eq _ _ hL9 (by norm_num)
    have hkey := (hclaim _ p hE 0 9 _ _ (by norm_num) hst0 hst9).1 _ _ hcw0 hcw9
    have hpos : 0 < luminanceChannel 242 := luminanceChannel_pos (by norm_num)
    have hL0pos : (0:ℝ) < 0.2126 * luminanceChannel 242 + 0.7152 * luminanceChannel 242
        + 0.0722 * luminanceChannel 242 := by nlinarith [hpos]
    have hlt : (1 + 0.05) / ((0.2126 * luminanceChannel 242 + 0.7152 * luminanceChannel 242
        + 0.0722 * luminanceChannel 242) + 0.05) < (1 + 0.05) / ((0:ℝ) + 0.05) := by
      apply div_lt_div_of_pos_left (by norm_num) (by norm_num)
      linarith
    linarith

/-- C2 (amended): within a palette, contrast monotonicity holds along
WCAG relative luminance (not along step order or target lightness, and
with the directions opposite to the claim): if step `i` is at most as
luminous as step `j`, then `contrastWhite i ≥ contrastWhite j` and —
provided step `i` is at least as luminous as `#0A0A0A` —
`contrastDark i ≤ contrastDark j`. -/
theorem C2_amended (hx : List Char) (p : ColorPalette) (i j : ℕ) (si sj : ColorStep)
    (Li Lj cwi cwj : ℝ)
    (hp : generateColorPalette hx = some p)
    (hsi : p.steps.get? i = some si) (hsj : p.steps.get? j = some sj)
    (hLi : getLuminanceHex si.hex = some Li) (hLj : getLuminanceHex sj.hex = some Lj)
    (hij : Li ≤ Lj)
    (hcwi : getContrastRatio si.hex (String.toList "#FFFFFF") = some cwi)
    (hcwj : getContrastRatio sj.hex (String.toList "#FFFFFF") = some cwj) :
    cwj ≤ cwi ∧
      ∀ cdi cdj : ℝ,
        getContrastRatio si.hex (String.toList "#0A0A0A") = some cdi →
        getContrastRatio sj.hex (String.toList "#0A0A0A") = some cdj →
        luminanceChannel 10 ≤ Li → cdi ≤ cdj := by
  have hbi := getLuminanceHex_bounds _ _ hLi
  have hbj := getLuminanceHex_bounds _ _ hLj
  constructor
  · rw [contrastWhite_eq _ _ hLi hbi.2, Option.some_inj] at hcwi
    rw [contrastWhite_eq _ _ hLj hbj.2, Option.some_inj] at hcwj
    rw [← hcwi, ← hcwj]
    exact div_le_div_of_nonneg_left (by norm_num) (by linarith [hbi.1]) (by linarith)
  · intro cdi cdj hcdi hcdj hLd
    rw [contrastDark_eq _ _ hLi hLd, Option.some_inj] at hcdi
    rw [contrastDark_eq _ _ hLj (le_trans hLd hij), Option.some_inj] at hcdj
    rw [← hcdi, ← hcdj]
    have hdpos : (0:ℝ) < luminanceChannel 10 + 0.05 := by
      have hnn := luminanceChannel_nonneg 10
      linarith
    rw [div_le_div_right hdpos]
    linarith

set_option maxRecDepth 10000 in
/-- C2 (witness): the amended claim instantiated in the palette of
`"#000000"` at the step pair (index 8, `"#1F1F1F"`) and (index 0,
`"#F2F2F2"`). -/
theorem C2_amended_witness :
    (1 + 0.05) / ((0.2126 * luminanceChannel 242 + 0.7152 * luminanceChannel 242
        + 0.0722 * luminanceChannel 242) + 0.05) ≤
      (1 + 0.05) / ((0.2126 * luminanceChannel 31 + 0.7152 * luminanceChannel 31
        + 0.0722 * luminanceChannel 31) + 0.05) ∧
    ((0.2126 * luminanceChannel 31 + 0.7152 * luminanceChannel 31
        + 0.0722 * luminanceChannel 31) + 0.05) / (luminanceChannel 10 + 0.05) ≤
      ((0.2126 * luminanceChannel 242 + 0.7152 * luminanceChannel 242
        + 0.0722 * luminanceChannel 242) + 0.05) / (luminanceChannel 10 + 0.05) := by
  rcases hE : generateColorPalette (String.toList "#000000") with _ | p
  · have hs : (generateColorPalette (String.toList "#000000")).isSome = true := by
      with_unfolding_all decide
    rw [hE] at hs
    simp at hs
  · have hst8 : p.steps.get? 8 =
        some { step := 800, hex := String.toList "#1F1F1F", isChosenColor := false } := by
      have hm : (generateColorPalette (String.toList "#000000")).map
          (fun p => p.steps.get? 8) =
            some (some { step := 800, hex := String.toList "#1F1F1F"
                       , isChosenColor := false }) := by
        with_unfolding_all decide
      rw [hE, Option.map_some', Option.some_inj] at hm
      exact hm
    have hst0 : p.steps.get? 0 =
        some { step := 50, hex := String.toList "#F2F2F2", isChosenColor := false } := by
      have hm : (generateColorPalette (String.toList "#000000")).map
          (fun p => p.steps.get? 0) =
            some (some { step := 50, hex := String.toList "#F2F2F2"
                       , isChosenColor := false }) := by
        with_unfolding_all decide
      rw [hE, Option.map_some', Option.some_inj] at hm
      exact hm
    have hp8 : hexToRgb (String.toList "#1F1F1F") =
        some { r := 31, g := 31, b := 31 } := by rfl
    have hp0 : hexToRgb (String.toList "#F2F2F2") =
        some { r := 242, g := 242, b := 242 } := by rfl
    have hL8 := getLuminanceHex_eq _ _ hp8
    have hL0 := getLuminanceHex_eq _ _ hp0
    have hij : (0.2126 * luminanceChannel 31 + 0.7152 * luminanceChannel 31
        + 0.0722 * luminanceChannel 31 : ℝ) ≤ 0.2126 * luminanceChannel 242
        + 0.7152 * luminanceChannel 242 + 0.0722 * luminanceChannel 242 := by
      linarith [chan31_le_chan242]
    have hLd8 : luminanceChannel 10 ≤ 0.2126 * luminanceChannel 31
        + 0.7152 * luminanceChannel 31 + 0.0722 * luminanceChannel 31 := by
      linarith [chan10_le_chan31]
    have hb8 := getLuminanceHex_bounds _ _ hL8
    have hb0 := getLuminanceHex_bounds _ _ hL0
    have hcw8 := contrastWhite_eq _ _ hL8 hb8.2
    have hcw0 := contrastWhite_eq _ _ hL0 hb0.2
    have hcd8 := contrastDark_eq _ _ hL8 hLd8
    have hcd0 := contrastDark_eq _ _ hL0 (le_trans hLd8 hij)
    obtain ⟨h1, h2⟩ := C2_amended _ p 8 0 _ _ _ _ _ _ hE hst8 hst0 hL8 hL0 hij hcw8 hcw0
    exact ⟨h1, h2 _ _ hcd8 hcd0 hLd8⟩

end ColorUtils
